import Mathlib

/-!
Verification of the markdown-to-epub conversion tool (Go, package cmd).

The Go source is embedded shallowly: strings are `List Char`, fallible
library calls are abstracted by a boolean success oracle, and the
side-effecting assembly pipeline is modelled as a pure function that
returns the result together with the ordered trace of performed effects.
-/

/-- Go unicode.IsSpace: the Unicode White_Space property, as used by
strings.TrimSpace in extractTitleFromMarkdown. -/
def goIsSpace (c : Char) : Bool :=
  c == '\t' || c == '\n' || c == '\x0B' || c == '\x0C' || c == '\r' || c == ' ' ||
  c == '\u0085' || c == '\u00A0' || c == '\u1680' ||
  (decide (0x2000 ≤ c.toNat) && decide (c.toNat ≤ 0x200A)) ||
  c == '\u2028' || c == '\u2029' || c == '\u202F' || c == '\u205F' || c == '\u3000'

/-- Go strings.TrimSpace: remove leading and trailing White_Space characters. -/
def goTrimSpace (l : List Char) : List Char :=
  ((l.dropWhile goIsSpace).reverse.dropWhile goIsSpace).reverse

/-- Go strings.Split(content, "\n") (SplitSeq yields the same segments, in order). -/
def splitLines : List Char → List (List Char)
  | [] => [[]]
  | '\n' :: cs => [] :: splitLines cs
  | c :: cs =>
    match splitLines cs with
    | [] => [[c]]
    | l :: ls => (c :: l) :: ls

/-- Loop body of Go extractTitleFromMarkdown: for each line in order,
trim it, and on the first line that starts with the two characters
"# " return everything after that marker (strings.CutPrefix). -/
def extractTitleLines : List (List Char) → List Char
  | [] => []
  | line :: rest =>
    if ['#', ' '].isPrefixOf (goTrimSpace line) then (goTrimSpace line).drop 2
    else extractTitleLines rest

/-- Go extractTitleFromMarkdown (cmd/generate.go): scan the raw markdown
text line by line and return the first H1 remainder, or "" if none. -/
def extractTitleFromMarkdown (content : List Char) : List Char :=
  extractTitleLines (splitLines content)

/-- Go path/filepath.Base for unix paths: strip trailing slashes, then keep
the part after the last slash; "" gives "." and an all-slash path gives "/". -/
def goBase (path : List Char) : List Char :=
  if path = [] then ['.']
  else
    let stripped := (path.reverse.dropWhile (fun c => c == '/')).reverse
    let base := (stripped.reverse.takeWhile (fun c => c != '/')).reverse
    if base = [] then ['/'] else base

/-- Helper for goExt: walk the reversed path, collecting characters until a
dot (return the extension including the dot) or a separator or the front
of the path (return the empty extension). -/
def goExtAux : List Char → List Char → List Char
  | [], _ => []
  | c :: cs, acc =>
    if c == '/' then []
    else if c == '.' then '.' :: acc
    else goExtAux cs (c :: acc)

/-- Go path/filepath.Ext: the suffix beginning at the final dot in the final
path element; empty if there is no dot. -/
def goExt (path : List Char) : List Char :=
  goExtAux path.reverse []

/-- Go strings.TrimSuffix: remove the given suffix if present. -/
def trimSuffix (s suffix : List Char) : List Char :=
  if suffix.isSuffixOf s then s.take (s.length - suffix.length) else s

/-- The last-resort title computed in runGenerate:
strings.TrimSuffix(filepath.Base(name), filepath.Ext(name)). -/
def fileStem (path : List Char) : List Char :=
  trimSuffix (goBase path) (goExt path)

/-- Go struct generateOptions (cmd/generate.go). -/
structure GenerateOptions where
  markdownFilename : List Char
  epubFilename : List Char
  overwrite : Bool
  title : List Char
  author : List Char
  language : List Char

/-- The title-determination block of Go runGenerate (lines 78-87):
use the --title flag if non-empty, else the first H1 of the markdown,
else the filename with its extension stripped. -/
def resolveTitle (flagTitle content mdFilename : List Char) : List Char :=
  if flagTitle = [] then
    if extractTitleFromMarkdown content = [] then fileStem mdFilename
    else extractTitleFromMarkdown content
  else flagTitle

/-- The two errors Go validateGenerateOptions can return. -/
inductive ValidateError
  | missingInput
  | outputExists
deriving DecidableEq

/-- Go validateGenerateOptions: the filesystem is abstracted as the
predicate iohelper.IsFileExist. The function only inspects the two paths
and performs no writes. -/
def validateGenerateOptions (fileExists : List Char → Bool) (options : GenerateOptions) :
    Except ValidateError Unit :=
  if !fileExists options.markdownFilename then .error .missingInput
  else if fileExists options.epubFilename && !options.overwrite then .error .outputExists
  else .ok ()

/-- Observable effects of a run, in the order they are performed. The
alphabet also contains an addFont effect for attaching a font resource to
the epub container, so that its absence from every trace is expressible. -/
inductive Event
  | readInput
  | convert
  | epubNew
  | setLang
  | setAuthor
  | createTemp
  | writeTemp
  | addCSS
  | addCover
  | addContent
  | addFont
  | writeEpub
  | removeTemp
deriving DecidableEq

/-- Success oracle for the fallible epub-library and filesystem calls made
by Go createEpub, in source order. -/
structure EpubEnv where
  newEpubOk : Bool
  createTempOk : Bool
  writeTempOk : Bool
  addCSSOk : Bool
  addCoverOk : Bool
  addContentOk : Bool
  writeOk : Bool

/-- The wrapped step errors of Go createEpub. -/
inductive EpubError
  | createFailed
  | createTempFailed
  | writeCSSFailed
  | addCSSFailed
  | addCoverFailed
  | addSectionFailed
  | writeFailed
deriving DecidableEq

/-- Events of the metadata phase of createEpub: epub.NewEpub has succeeded,
SetLang is always called, SetAuthor only when the author flag is non-empty. -/
def metaEvents (opts : GenerateOptions) : List Event :=
  [Event.epubNew, Event.setLang] ++ (if opts.author = [] then [] else [Event.setAuthor])

/-- Go createEpub (cmd/generate.go lines 141-197). Each library call either
succeeds (its event enters the trace) or fails (the wrapped step error is
returned). The deferred os.Remove of the temporary stylesheet file runs at
every return once os.CreateTemp has succeeded, so removeTemp closes every
trace that contains createTemp, also the fully successful one. -/
def createEpub (env : EpubEnv) (opts : GenerateOptions) (title htmlContent : List Char) :
    Except EpubError Unit × List Event :=
  if !env.newEpubOk then (.error .createFailed, [])
  else if !env.createTempOk then (.error .createTempFailed, metaEvents opts)
  else if !env.writeTempOk then
    (.error .writeCSSFailed, metaEvents opts ++ [Event.createTemp, Event.removeTemp])
  else if !env.addCSSOk then
    (.error .addCSSFailed,
      metaEvents opts ++ [Event.createTemp, Event.writeTemp, Event.removeTemp])
  else if !env.addCoverOk then
    (.error .addCoverFailed,
      metaEvents opts ++ [Event.createTemp, Event.writeTemp, Event.addCSS, Event.removeTemp])
  else if !env.addContentOk then
    (.error .addSectionFailed,
      metaEvents opts ++
        [Event.createTemp, Event.writeTemp, Event.addCSS, Event.addCover, Event.removeTemp])
  else if !env.writeOk then
    (.error .writeFailed,
      metaEvents opts ++
        [Event.createTemp, Event.writeTemp, Event.addCSS, Event.addCover, Event.addContent,
         Event.removeTemp])
  else
    (.ok (),
      metaEvents opts ++
        [Event.createTemp, Event.writeTemp, Event.addCSS, Event.addCover, Event.addContent,
         Event.writeEpub, Event.removeTemp])

/-- The errors Go runGenerate can return. -/
inductive RunError
  | validation (e : ValidateError)
  | readFailed
  | convertFailed
  | epub (e : EpubError)
deriving DecidableEq

/-- Success oracle and produced data for the read and convert steps of
runGenerate, plus the oracle for the assembly step. -/
structure RunEnv where
  readOk : Bool
  content : List Char
  convertOk : Bool
  htmlContent : List Char
  epub : EpubEnv

/-- Go runGenerate (cmd/generate.go lines 61-96): validate, read the
markdown file, convert to HTML, resolve the title, assemble the epub. -/
def runGenerate (fileExists : List Char → Bool) (env : RunEnv) (opts : GenerateOptions) :
    Except RunError Unit × List Event :=
  match validateGenerateOptions fileExists opts with
  | .error e => (.error (.validation e), [])
  | .ok _ =>
    if !env.readOk then (.error .readFailed, [])
    else if !env.convertOk then (.error .convertFailed, [Event.readInput])
    else
      match createEpub env.epub opts
          (resolveTitle opts.title env.content opts.markdownFilename) env.htmlContent with
      | (.error e, tr) => (.error (.epub e), Event.readInput :: Event.convert :: tr)
      | (.ok _, tr) => (.ok (), Event.readInput :: Event.convert :: tr)

/-- Spec-side view of one step of the title scan: a line contributes a title
exactly when, after trimming surrounding whitespace, it begins with the two
characters "# "; the contribution is the remainder of that trimmed line. -/
def titleLineValue (line : List Char) : Option (List Char) :=
  if ['#', ' '].isPrefixOf (goTrimSpace line) then some ((goTrimSpace line).drop 2)
  else none

/-- Spec-side title scan: the first line contributing a title wins
(List.findSome? inspects the lines front to back and stops at the first
some), later lines are never considered. -/
def specTitleScan (content : List Char) : Option (List Char) :=
  (splitLines content).findSome? titleLineValue

/-- The claim's literal reading of the scan, in which the returned title is
the remainder of the matching line with surrounding whitespace trimmed off
the remainder itself. -/
def titleScanPerClaim (content : List Char) : Option (List Char) :=
  (splitLines content).findSome? (fun line =>
    if ['#', ' '].isPrefixOf (goTrimSpace line) then
      some (goTrimSpace ((goTrimSpace line).drop 2))
    else none)

/-- Spec-side title resolution when no --title flag was supplied: the first
H1 of the document, else the filename stem. -/
def resolveTitleNoFlag (content mdFilename : List Char) : List Char :=
  if extractTitleFromMarkdown content = [] then fileStem mdFilename
  else extractTitleFromMarkdown content

/-- The first element surviving dropWhile does not satisfy the predicate. -/
theorem dropWhile_head_not {α : Type} (p : α → Bool) (l : List α) (a : α) (rest : List α)
    (h : l.dropWhile p = a :: rest) : p a = false := by
  induction l with
  | nil => exact List.noConfusion h
  | cons x xs ih =>
    rw [List.dropWhile_cons] at h
    by_cases hx : p x = true
    · rw [if_pos hx] at h
      exact ih h
    · rw [if_neg hx] at h
      injection h with h1 h2
      subst h1
      cases hpx : p x with
      | false => rfl
      | true => exact absurd hpx hx

/-- A trimmed line that starts with "# " has something after the marker:
the trimmed line cannot end in the marker's space. -/
theorem goTrimSpace_drop_two_ne_nil (l : List Char)
    (h : (['#', ' '].isPrefixOf (goTrimSpace l)) = true)
    (hd : (goTrimSpace l).drop 2 = []) : False := by
  obtain ⟨s, hs⟩ := List.isPrefixOf_iff_prefix.mp h
  have hs0 : s = [] := by
    have h2 : (['#', ' '] ++ s).drop 2 = [] := by rw [hs]; exact hd
    simpa using h2
  have ht : goTrimSpace l = ['#', ' '] := by rw [← hs, hs0]; rfl
  rw [goTrimSpace] at ht
  have h3 := congrArg List.reverse ht
  rw [List.reverse_reverse] at h3
  have h4 := dropWhile_head_not goIsSpace ((l.dropWhile goIsSpace).reverse) ' ' ['#'] h3
  exact absurd h4 (by decide)

/-- Characterisation of a successful scan step: the line matched after
trimming and the value is the remainder past the marker, which is
necessarily non-empty. -/
theorem titleLineValue_some (line u : List Char) (h : titleLineValue line = some u) :
    (['#', ' '].isPrefixOf (goTrimSpace line)) = true
    ∧ u = (goTrimSpace line).drop 2 ∧ u ≠ [] := by
  unfold titleLineValue at h
  by_cases hp : (['#', ' '].isPrefixOf (goTrimSpace line)) = true
  · rw [if_pos hp] at h
    have hu : (goTrimSpace line).drop 2 = u := Option.some.inj h
    refine ⟨hp, hu.symm, ?_⟩
    intro hnil
    exact goTrimSpace_drop_two_ne_nil line hp (by rw [hu]; exact hnil)
  · rw [if_neg hp] at h
    exact Option.noConfusion h

/-- The source's scan loop agrees with the spec-side findSome? scan, and a
found title is non-empty. -/
theorem extractTitleLines_eq_of_findSome (lines : List (List Char)) (t : List Char)
    (h : lines.findSome? titleLineValue = some t) :
    extractTitleLines lines = t ∧ t ≠ [] := by
  induction lines with
  | nil => exact Option.noConfusion h
  | cons line rest ih =>
    rw [List.findSome?_cons] at h
    cases hv : titleLineValue line with
    | some u =>
      rw [hv] at h
      have hu : u = t := Option.some.inj h
      obtain ⟨hp, hd, hne⟩ := titleLineValue_some line u hv
      subst hu
      constructor
      · simp only [extractTitleLines]
        rw [if_pos hp, ← hd]
      · exact hne
    | none =>
      rw [hv] at h
      have hrec := ih h
      have hpf : ¬((['#', ' '].isPrefixOf (goTrimSpace line)) = true) := by
        intro hc
        unfold titleLineValue at hv
        rw [if_pos hc] at hv
        exact Option.noConfusion hv
      constructor
      · simp only [extractTitleLines]
        rw [if_neg hpf]
        exact hrec.1
      · exact hrec.2

/-- The scan skips any lines that do not match, whatever they contain. -/
theorem extractTitleLines_skip (pre post : List (List Char)) (l : List Char)
    (hpre : ∀ p ∈ pre, (['#', ' '].isPrefixOf (goTrimSpace p)) = false)
    (hl : (['#', ' '].isPrefixOf (goTrimSpace l)) = true) :
    extractTitleLines (pre ++ l :: post) = (goTrimSpace l).drop 2 := by
  induction pre with
  | nil =>
    rw [List.nil_append]
    simp only [extractTitleLines]
    rw [if_pos hl]
  | cons p ps ih =>
    have hp := hpre p (List.mem_cons_self p ps)
    rw [List.cons_append]
    simp only [extractTitleLines]
    rw [if_neg (by rw [hp]; exact Bool.noConfusion)]
    exact ih (fun q hq => hpre q (List.mem_cons_of_mem p hq))

/-- A non-nil list has isEmpty false. -/
theorem isEmpty_false_of_ne {l : List Char} (h : l ≠ []) : l.isEmpty = false := by
  cases l with
  | nil => exact absurd rfl h
  | cons a as => rfl

/-- C1 counterexample: on the document whose single line is "#  My Book"
(two spaces after the hash), the code returns " My Book" with the leading
space kept, while the claim's whitespace-trimmed remainder is "My Book",
so the resolved title is not the whitespace-trimmed remainder. -/
theorem c1_counterexample :
    extractTitleFromMarkdown ("#  My Book".data) = (" My Book".data)
    ∧ titleScanPerClaim ("#  My Book".data) = some ("My Book".data)
    ∧ ((" My Book".data == "My Book".data) = false)
    ∧ resolveTitle [] ("#  My Book".data) ("book.md".data) = (" My Book".data) := by
  refine ⟨?_, ?_, ?_, ?_⟩ <;> decide

/-- C1 (amended): with no explicit title flag, the title is computed by
scanning the raw markdown line by line from the front; for the first line
which, after trimming surrounding whitespace, begins with "# ", the title
is the remainder of that trimmed line past the two-character marker (no
further whitespace trimming is applied to the remainder); later lines are
never considered, as expressed by List.findSome?. -/
theorem c1_first_h1 (content mdFilename t : List Char)
    (h : specTitleScan content = some t) :
    extractTitleFromMarkdown content = t ∧ resolveTitle [] content mdFilename = t := by
  unfold specTitleScan at h
  obtain ⟨he, hne⟩ := extractTitleLines_eq_of_findSome (splitLines content) t h
  have hx : extractTitleFromMarkdown content = t := he
  refine ⟨hx, ?_⟩
  unfold resolveTitle
  rw [if_pos rfl, hx, if_neg hne]

/-- C1 witness: a document whose first line is "# My Book" resolves to
"My Book" when no flag is given. -/
theorem c1_first_h1_witness :
    specTitleScan ("# My Book\nsome text\n# Later".data) = some ("My Book".data)
    ∧ (extractTitleFromMarkdown ("# My Book\nsome text\n# Later".data) = ("My Book".data)
       ∧ resolveTitle [] ("# My Book\nsome text\n# Later".data) ("input.md".data)
         = ("My Book".data)) :=
  ⟨by decide,
   c1_first_h1 ("# My Book\nsome text\n# Later".data) ("input.md".data) ("My Book".data)
     (by decide)⟩

/-- C2: validation fails with the missing-input error exactly when the
markdown path does not exist; with the output-exists error exactly when the
markdown path exists, the epub path exists and overwrite is not set; and
succeeds exactly when the markdown path exists and the epub path is absent
or overwrite is set. The function is pure, so success has no side effects. -/
theorem c2_validate_spec (fileExists : List Char → Bool) (o : GenerateOptions) :
    (validateGenerateOptions fileExists o = .error .missingInput ↔
      fileExists o.markdownFilename = false)
    ∧ (validateGenerateOptions fileExists o = .error .outputExists ↔
      (fileExists o.markdownFilename = true ∧ fileExists o.epubFilename = true
        ∧ o.overwrite = false))
    ∧ (validateGenerateOptions fileExists o = .ok () ↔
      (fileExists o.markdownFilename = true
        ∧ (fileExists o.epubFilename = false ∨ o.overwrite = true))) := by
  cases hm : fileExists o.markdownFilename <;>
    cases he : fileExists o.epubFilename <;>
      cases hw : o.overwrite <;>
        simp [validateGenerateOptions, hm, he, hw]

/-- C4: a non-empty --title flag value is used verbatim as the resolved
title, regardless of the document content and of the input filename. -/
theorem c4_explicit_title (flagTitle content mdFilename : List Char)
    (h : flagTitle.isEmpty = false) :
    resolveTitle flagTitle content mdFilename = flagTitle := by
  cases flagTitle with
  | nil => exact Bool.noConfusion h
  | cons a as => rfl

/-- C4 witness: the flag "Custom" wins over a document with its own H1. -/
theorem c4_explicit_title_witness :
    (("Custom".data).isEmpty = false)
    ∧ resolveTitle ("Custom".data) ("# Ignored Heading".data) ("doc.md".data)
      = ("Custom".data) :=
  ⟨rfl, c4_explicit_title ("Custom".data) ("# Ignored Heading".data) ("doc.md".data) rfl⟩

/-- C5 counterexample: the input filename ".md" is non-empty, yet with no
flag and no H1 the resolved title is empty, because the filename stem
(basename minus final extension) of ".md" is itself empty. -/
theorem c5_counterexample :
    ((".md".data).isEmpty = false)
    ∧ fileStem (".md".data) = []
    ∧ resolveTitle [] [] (".md".data) = [] := by
  refine ⟨?_, ?_, ?_⟩ <;> decide

/-- C5 (amended): the resolved title is non-empty whenever the filename
stem (the basename with its final extension stripped) is non-empty; a path
such as ".md" has an empty stem and can yield an empty title. -/
theorem c5_stem_nonempty (flagTitle content mdFilename : List Char)
    (h : (fileStem mdFilename).isEmpty = false) :
    (resolveTitle flagTitle content mdFilename).isEmpty = false := by
  unfold resolveTitle
  by_cases hf : flagTitle = []
  · rw [if_pos hf]
    by_cases ht : extractTitleFromMarkdown content = []
    · rw [if_pos ht]
      exact h
    · rw [if_neg ht]
      exact isEmpty_false_of_ne ht
  · rw [if_neg hf]
    exact isEmpty_false_of_ne hf

/-- C5 witness: input path chapter1.md with no H1 and no flag resolves to
the non-empty title "chapter1". -/
theorem c5_stem_nonempty_witness :
    ((fileStem ("chapter1.md".data)).isEmpty = false)
    ∧ ((resolveTitle [] ("plain text only".data) ("chapter1.md".data)).isEmpty = false)
    ∧ resolveTitle [] ("plain text only".data) ("chapter1.md".data) = ("chapter1".data) :=
  ⟨by decide,
   c5_stem_nonempty [] ("plain text only".data) ("chapter1.md".data) (by decide),
   by decide⟩

/-- C9: an explicitly supplied but empty --title value behaves exactly like
an absent flag: resolution falls through to the first-H1 scan and then to
the filename stem, never using the empty string verbatim. -/
theorem c9_empty_flag_falls_through (content mdFilename : List Char) :
    resolveTitle [] content mdFilename = resolveTitleNoFlag content mdFilename := rfl

/-- C10: the title scan is unaware of markdown structure: if no earlier raw
line matches the trimmed "# " test, the first matching raw line supplies
the title, whatever context (such as a fenced code block) it lies in and
whatever headings precede it. -/
theorem c10_raw_line_scan (content : List Char) (pre post : List (List Char)) (l : List Char)
    (hsplit : splitLines content = pre ++ l :: post)
    (hpre : ∀ p ∈ pre, (['#', ' '].isPrefixOf (goTrimSpace p)) = false)
    (hl : (['#', ' '].isPrefixOf (goTrimSpace l)) = true) :
    extractTitleFromMarkdown content = (goTrimSpace l).drop 2 := by
  unfold extractTitleFromMarkdown
  rw [hsplit]
  exact extractTitleLines_skip pre post l hpre hl

/-- C10 witness: a "# " line inside a fenced code block is taken as the
title even though a real heading precedes it in the rendered document. -/
theorem c10_raw_line_scan_witness :
    extractTitleFromMarkdown ("## Real heading\n```\n# Inside fence\n```".data)
      = ("Inside fence".data) :=
  (c10_raw_line_scan ("## Real heading\n```\n# Inside fence\n```".data)
      [("## Real heading".data), ("```".data)] [("```".data)] ("# Inside fence".data)
      (by decide) (by decide) (by decide)).trans (by decide)


/-- Sample options used by concrete witnesses: author set, no title flag. -/
def sampleOpts : GenerateOptions :=
  ⟨("book.md".data), ("book.epub".data), false, [], ("An Author".data), ("en".data)⟩

/-- All epub-library calls succeed. -/
def allOkEpubEnv : EpubEnv :=
  ⟨true, true, true, true, true, true, true⟩

/-- A run environment in which every step succeeds. -/
def sampleRunEnv : RunEnv :=
  ⟨true, ("# T\nbody".data), true, ("<h1>T</h1>".data), allOkEpubEnv⟩

/-- C3: once the temporary stylesheet file has been created inside
createEpub, it is removed on every exit path of that function, whichever
later sub-step fails and also on full success. -/
theorem c3_temp_cleanup (env : EpubEnv) (opts : GenerateOptions) (title htmlContent : List Char)
    (h : (createEpub env opts title htmlContent).2.contains Event.createTemp = true) :
    (createEpub env opts title htmlContent).2.contains Event.removeTemp = true := by
  obtain ⟨b1, b2, b3, b4, b5, b6, b7⟩ := env
  revert h
  by_cases ha : opts.author = []
  · simp only [createEpub, metaEvents, if_pos ha]
    revert b1 b2 b3 b4 b5 b6 b7
    decide
  · simp only [createEpub, metaEvents, if_neg ha]
    revert b1 b2 b3 b4 b5 b6 b7
    decide

/-- C3 witness: in a run that fails at the content-section step the
temporary stylesheet was created and is removed. -/
theorem c3_temp_cleanup_witness :
    ((createEpub ⟨true, true, true, true, true, false, true⟩ sampleOpts ("T".data)
        ("<p>x</p>".data)).2.contains Event.createTemp = true)
    ∧ ((createEpub ⟨true, true, true, true, true, false, true⟩ sampleOpts ("T".data)
        ("<p>x</p>".data)).2.contains Event.removeTemp = true) :=
  ⟨by decide,
   c3_temp_cleanup ⟨true, true, true, true, true, false, true⟩ sampleOpts ("T".data)
     ("<p>x</p>".data) (by decide)⟩

/-- C6: when validation fails, runGenerate returns that validation error
with an empty effect trace: the input file is not read, no conversion
happens, and nothing is written, so an existing output file is untouched. -/
theorem c6_validation_early (fileExists : List Char → Bool) (env : RunEnv)
    (opts : GenerateOptions) (e : ValidateError)
    (h : validateGenerateOptions fileExists opts = .error e) :
    runGenerate fileExists env opts = (.error (.validation e), []) := by
  unfold runGenerate
  rw [h]

/-- C6 witness: with no files on disk, validation reports the missing input
and the run performs no effect at all. -/
theorem c6_validation_early_witness :
    validateGenerateOptions (fun _ => false) sampleOpts = .error .missingInput
    ∧ runGenerate (fun _ => false) sampleRunEnv sampleOpts
      = (.error (.validation .missingInput), []) :=
  ⟨rfl,
   c6_validation_early (fun _ => false) sampleRunEnv sampleOpts ValidateError.missingInput rfl⟩

/-- C7: in every trace of createEpub, the stylesheet is attached before the
cover section is added and the cover section is added before the content
section, so the sections appear in insertion order with the cover first and
the stylesheet resource exists before any section references it. -/
theorem c7_section_order (env : EpubEnv) (opts : GenerateOptions)
    (title htmlContent : List Char) :
    ((createEpub env opts title htmlContent).2.contains Event.addCover = true →
      (createEpub env opts title htmlContent).2.contains Event.addCSS = true
      ∧ (createEpub env opts title htmlContent).2.indexOf Event.addCSS <
          (createEpub env opts title htmlContent).2.indexOf Event.addCover)
    ∧ ((createEpub env opts title htmlContent).2.contains Event.addContent = true →
      (createEpub env opts title htmlContent).2.contains Event.addCover = true
      ∧ (createEpub env opts title htmlContent).2.indexOf Event.addCover <
          (createEpub env opts title htmlContent).2.indexOf Event.addContent) := by
  obtain ⟨b1, b2, b3, b4, b5, b6, b7⟩ := env
  by_cases ha : opts.author = []
  · simp only [createEpub, metaEvents, if_pos ha]
    revert b1 b2 b3 b4 b5 b6 b7
    decide
  · simp only [createEpub, metaEvents, if_neg ha]
    revert b1 b2 b3 b4 b5 b6 b7
    decide

/-- C7 witness: in the fully successful assembly the stylesheet precedes
the cover and the cover precedes the content. -/
theorem c7_section_order_witness :
    ((createEpub allOkEpubEnv sampleOpts ("T".data) ("<p>x</p>".data)).2.indexOf
        Event.addCSS <
      (createEpub allOkEpubEnv sampleOpts ("T".data) ("<p>x</p>".data)).2.indexOf
        Event.addCover)
    ∧ ((createEpub allOkEpubEnv sampleOpts ("T".data) ("<p>x</p>".data)).2.indexOf
        Event.addCover <
      (createEpub allOkEpubEnv sampleOpts ("T".data) ("<p>x</p>".data)).2.indexOf
        Event.addContent) :=
  ⟨((c7_section_order allOkEpubEnv sampleOpts ("T".data) ("<p>x</p>".data)).1
      (by decide)).2,
   ((c7_section_order allOkEpubEnv sampleOpts ("T".data) ("<p>x</p>".data)).2
      (by decide)).2⟩

/-- C8: createEpub never attaches a font resource to the container, for any
language value including "ja"; the README documents an embedded Japanese
font, but no font-attachment call exists in the assembly code. -/
theorem c8_no_font (env : EpubEnv) (opts : GenerateOptions)
    (title htmlContent : List Char) :
    (createEpub env opts title htmlContent).2.contains Event.addFont = false := by
  obtain ⟨b1, b2, b3, b4, b5, b6, b7⟩ := env
  by_cases ha : opts.author = []
  · simp only [createEpub, metaEvents, if_pos ha]
    revert b1 b2 b3 b4 b5 b6 b7
    decide
  · simp only [createEpub, metaEvents, if_neg ha]
    revert b1 b2 b3 b4 b5 b6 b7
    decide
